import Mathlib

/-!
Verification of the live audio bridge in `src/components/ChatMessage.tsx`
(the service portion of that file: `connectLive`, its `onaudioprocess`,
`onmessage`, `onerror` handlers, and `closeLiveSession`), shallowly
embedded in Lean.  Audio sample values and clock times are modelled as
rationals; module-level mutable state is modelled as an explicit record
threaded through the handlers, which also emit a list of observable
events (transport operations, host callbacks, node operations).
-/

namespace LiveBridge

/-! ## Frame encoder (ChatMessage.tsx lines 331-343)

The capture handler runs, for each index `i` of the input buffer,
`int16[i] = inputData[i] * 32768`, where `int16` is an `Int16Array`.
Assignment into an `Int16Array` applies the JavaScript `ToInt16`
conversion: truncate the number toward zero, reduce modulo 2^16, and
reinterpret the residue as a signed 16-bit value. -/

/-- Truncation toward zero of a rational, as in the ToInt16 conversion. -/
def ratTrunc (q : ℚ) : ℤ :=
  if 0 ≤ q then ⌊q⌋ else ⌈q⌉

/-- Reduce an integer modulo 2^16 and reinterpret as signed 16-bit,
exactly the final steps of the ToInt16 abstract operation. -/
def wrap16 (n : ℤ) : ℤ :=
  let m := n % 65536
  if m < 32768 then m else m - 65536

/-- The full ToInt16 conversion applied on Int16Array element write. -/
def jsToInt16 (x : ℚ) : ℤ :=
  wrap16 (ratTrunc x)

/-- The per-buffer loop of `scriptProcessor.onaudioprocess`:
`int16[i] = inputData[i] * 32768` for every index of the input. -/
def encodeChunk (xs : List ℚ) : List ℤ :=
  xs.map (fun x => jsToInt16 (x * 32768))

/-- The two bytes of a 16-bit sample in the transported byte buffer
(`new Uint8Array(int16.buffer)` on a little-endian platform):
low byte first. -/
def byteLE (n : ℤ) : List ℕ :=
  let u := (n % 65536).toNat
  [u % 256, u / 256]

/-- The byte buffer sent as the `pcmBlob` payload. -/
def encodeBytes (xs : List ℚ) : List ℕ :=
  (encodeChunk xs).flatMap byteLE

/-- The conversion the specification describes for the encoder:
`round(sample * 32767)` clamped to the signed 16-bit range.  Stated for
comparison with `jsToInt16`, which is what the code performs. -/
def specEncodeSample (x : ℚ) : ℤ :=
  max (-32768) (min 32767 (round (x * 32767)))

/-- Modelled from the spec: the inverse decoder for inbound/outbound
16-bit PCM.  The decoding helper `decodeAudioData` lives in `utils`,
which is not part of the provided sources; the spec only states that
decoding an encoded frame recovers the samples up to one quantization
step, so we model the standard inverse of the capture scale: each
signed 16-bit sample `n` decodes to `n / 32768`. -/
def decodeSample (n : ℤ) : ℚ :=
  (n : ℚ) / 32768

theorem encodeChunk_length (xs : List ℚ) : (encodeChunk xs).length = xs.length := by
  simp [encodeChunk]

theorem encodeChunk_replicate (n : ℕ) (c : ℚ) :
    encodeChunk (List.replicate n c) = List.replicate n (jsToInt16 (c * 32768)) := by
  simp [encodeChunk, List.map_replicate]

theorem encodeChunk_getD (xs : List ℚ) (i : ℕ) (h : i < xs.length) :
    (encodeChunk xs).getD i 0 = jsToInt16 (xs.getD i 0 * 32768) := by
  rw [List.getD_eq_getElem _ _ (by simpa [encodeChunk_length] using h),
    List.getD_eq_getElem _ _ h]
  simp [encodeChunk]

theorem encodeBytes_length (xs : List ℚ) : (encodeBytes xs).length = 2 * xs.length := by
  rw [encodeBytes, ← encodeChunk_length xs]
  induction encodeChunk xs with
  | nil => simp
  | cons a l ih => simp [byteLE, ih, Nat.mul_add, Nat.mul_succ]

/-! ## Module state and observable events

`ChatMessage.tsx` keeps the bridge state in module-level variables
(lines 153-158 and 311-312): `liveSession`, `mediaStream`,
`scriptProcessor`, `inputAudioContext`, `outputAudioContext`,
`nextStartTime` and the `sources` set.  We model the variables as a
record; objects are identified by numeric ids, and alongside each
handle we track the observable resource condition (tracks live, node
connected, context open). -/

/-- An audio context handle: its identity and whether it is open. -/
structure AudioCtx where
  id : ℕ
  isOpen : Bool
deriving DecidableEq

/-- The module-level mutable state of the live bridge. -/
@[ext]
structure ModuleState where
  liveSession : Option ℕ
  mediaStream : Option ℕ
  micLive : Bool
  scriptProc : Option ℕ
  procConnected : Bool
  inputCtx : Option AudioCtx
  outputCtx : Option AudioCtx
  sources : List ℕ
  nextStartTime : ℚ
deriving DecidableEq

/-- Observable events emitted by the handlers: host callbacks,
transport operations, and operations on platform audio objects. -/
inductive Ev where
  | onOpen : Ev
  | onMessage : Ev
  | onClose : Ev
  | onError : Ev
  | alreadyActiveError : Ev
  | transportClose : ℕ → Ev
  | transportSend : ℕ → List ℕ → Ev
  | trackStop : Ev
  | procDisconnect : Ev
  | ctxClose : ℕ → Ev
  | sourceStart : ℕ → ℚ → Ev
  | sourceStop : ℕ → Ev
deriving DecidableEq

/-- Does an event invoke a host callback
(`onOpen` / `onMessage` / `onClose` / `onError`)? -/
def hostCb : Ev → Bool
  | Ev.onOpen => true
  | Ev.onMessage => true
  | Ev.onClose => true
  | Ev.onError => true
  | _ => false

/-- The state before any session was ever opened: every module
variable undefined, `sources` empty, `nextStartTime` zero. -/
def idleState : ModuleState :=
  ⟨none, none, false, none, false, none, none, [], 0⟩

/-! ## Capture path: `scriptProcessor.onaudioprocess` (lines 331-343)

The handler encodes the chunk and then runs
`liveSession?.sendRealtimeInput({ media: pcmBlob })`: the send happens
only when the module-level `liveSession` is non-null. -/

/-- One firing of the audio-processing callback on input chunk `xs`. -/
def onaudioprocess (xs : List ℚ) (s : ModuleState) : ModuleState × List Ev :=
  match s.liveSession with
  | some sid => (s, [Ev.transportSend sid (encodeBytes xs)])
  | none => (s, [])

/-! ## Playback path: `onmessage` (lines 349-363)

The handler always calls `callbacks.onMessage(message)`.  When the
message carries a base64 audio payload it decodes a segment, advances
the cursor by `nextStartTime = max(nextStartTime, currentTime)`,
starts a buffer source at that cursor, adds the cursor the segment's
duration, and registers the source in `sources`. -/

/-- A decoded playback segment: the id of the buffer source created
for it and its duration in seconds. -/
structure Segment where
  srcId : ℕ
  duration : ℚ
deriving DecidableEq

/-- Line 353: `nextStartTime = Math.max(nextStartTime, outputAudioContext.currentTime)`. -/
def scheduleStart (nst t : ℚ) : ℚ :=
  max nst t

/-- One firing of the live-session `onmessage` callback.  `payload` is
the optional decoded audio segment of the message and `t` is the
output context's `currentTime` when the handler reads it. -/
def onmessage (payload : Option Segment) (t : ℚ) (s : ModuleState) : ModuleState × List Ev :=
  match payload with
  | none => (s, [Ev.onMessage])
  | some seg =>
      let ns := scheduleStart s.nextStartTime t
      ({ s with nextStartTime := ns + seg.duration, sources := seg.srcId :: s.sources },
       [Ev.onMessage, Ev.sourceStart seg.srcId ns])

/-- Line 365: `onerror: callbacks.onError` — the transport error
callback forwards the error to the host and does nothing else. -/
def onTransportError (s : ModuleState) : ModuleState × List Ev :=
  (s, [Ev.onError])

/-! ## Session start: `connectLive` (lines 314-372)

The function body synchronously creates two fresh audio contexts and
initiates `ai.live.connect`; it performs no check of the module-level
`liveSession`.  The transport's `onopen` continuation (lines 325-347)
assigns `liveSession = session`, acquires the microphone, creates and
wires the script processor, and invokes the host's `onOpen`. -/

/-- The synchronous part of `connectLive`: overwrite both module-level
audio contexts with fresh open ones and start connecting. -/
def connectLiveStart (inId outId : ℕ) (s : ModuleState) : ModuleState × List Ev :=
  ({ s with inputCtx := some ⟨inId, true⟩, outputCtx := some ⟨outId, true⟩ }, [])

/-- The `onopen` continuation of `connectLive`: store the session
handle, acquire the microphone stream, wire the script processor, and
fire the host's `onOpen` callback. -/
def connectLiveOnOpen (sid streamId procId : ℕ) (s : ModuleState) : ModuleState × List Ev :=
  ({ s with liveSession := some sid, mediaStream := some streamId, micLive := true,
            scriptProc := some procId, procConnected := true }, [Ev.onOpen])

/-! ## Teardown: `closeLiveSession` (lines 374-384)

Nine sequential statements with no exception handling.  We model each
statement separately so that an exception thrown by statement `k`
(which aborts the remaining statements) is expressible: `runClose k`
executes the first `k` statements. -/

/-- Statement `i` of `closeLiveSession`, in source order:
0: `liveSession?.close()`; 1: `liveSession = null`;
2: `mediaStream?.getTracks().forEach(t => t.stop())`;
3: `scriptProcessor?.disconnect()`; 4: `inputAudioContext?.close()`;
5: `outputAudioContext?.close()`; 6: `sources.forEach(s => s.stop())`;
7: `sources.clear()`; 8: `nextStartTime = 0`. -/
def closeStmt : ℕ → ModuleState → ModuleState × List Ev
  | 0, s => (s, match s.liveSession with
                | some sid => [Ev.transportClose sid]
                | none => [])
  | 1, s => ({ s with liveSession := none }, [])
  | 2, s => (match s.mediaStream with
             | some _ => ({ s with micLive := false }, [Ev.trackStop])
             | none => (s, []))
  | 3, s => (match s.scriptProc with
             | some _ => ({ s with procConnected := false }, [Ev.procDisconnect])
             | none => (s, []))
  | 4, s => (match s.inputCtx with
             | some c => ({ s with inputCtx := some ⟨c.id, false⟩ }, [Ev.ctxClose c.id])
             | none => (s, []))
  | 5, s => (match s.outputCtx with
             | some c => ({ s with outputCtx := some ⟨c.id, false⟩ }, [Ev.ctxClose c.id])
             | none => (s, []))
  | 6, s => (s, s.sources.map Ev.sourceStop)
  | 7, s => ({ s with sources := [] }, [])
  | 8, s => ({ s with nextStartTime := 0 }, [])
  | _, s => (s, [])

/-- Execute the first `k` statements of `closeLiveSession` in order. -/
def runClose : ℕ → ModuleState → ModuleState × List Ev
  | 0, s => (s, [])
  | k + 1, s =>
      let r := runClose k s
      let r2 := closeStmt k r.1
      (r2.1, r.2 ++ r2.2)

/-- The full `closeLiveSession` body: all nine statements. -/
def closeLiveSession (s : ModuleState) : ModuleState × List Ev :=
  runClose 9 s

/-- `closeLiveSession` when statement `failAt` throws: the statements
before it complete, it and everything after it do not run. -/
def closeLiveSessionFaulty (failAt : ℕ) (s : ModuleState) : ModuleState × List Ev :=
  runClose (min failAt 9) s

/-! ## Concrete states used by counterexamples -/

/-- The state reached by starting a session from idle:
`connectLiveStart` with contexts 1, 2 then `connectLiveOnOpen` with
session 0, stream 10, processor 20. -/
def openedState : ModuleState :=
  (connectLiveOnOpen 0 10 20 (connectLiveStart 1 2 idleState).1).1

/-- An open session with one in-flight playback source (id 7) and a
nonzero scheduling cursor. -/
def busyState : ModuleState :=
  { openedState with sources := [7], nextStartTime := 3 }

/-! ## A run of the playback scheduler

`startTimes nst arr` lists the start times the `onmessage` handler
assigns to a sequence of audio-bearing messages processed in arrival
order, where `arr` pairs each message with the playback clock value at
arrival and the decoded segment's duration, and `nst` is the cursor
value when the first message arrives.  Each step is the cursor update
of lines 353-360, restated by `onmessage_some_nextStartTime` below. -/

def startTimes (nst : ℚ) : List (ℚ × ℚ) → List ℚ
  | [] => []
  | (t, d) :: rest => scheduleStart nst t :: startTimes (scheduleStart nst t + d) rest

theorem startTimes_length (nst : ℚ) (arr : List (ℚ × ℚ)) :
    (startTimes nst arr).length = arr.length := by
  induction arr generalizing nst with
  | nil => rfl
  | cons p rest ih => cases p; simp [startTimes, ih]

theorem onmessage_some_nextStartTime (seg : Segment) (t : ℚ) (s : ModuleState) :
    (onmessage (some seg) t s).1.nextStartTime =
      scheduleStart s.nextStartTime t + seg.duration := rfl

theorem startTimes_head_ge (nst : ℚ) (arr : List (ℚ × ℚ)) (h : arr ≠ []) :
    nst ≤ (startTimes nst arr).getD 0 0 := by
  cases arr with
  | nil => exact absurd rfl h
  | cons p rest => cases p; exact le_max_left _ _

theorem startTimes_no_overlap (arr : List (ℚ × ℚ)) (nst : ℚ) (i : ℕ)
    (hi : i + 1 < arr.length) :
    (startTimes nst arr).getD i 0 + (arr.getD i (0, 0)).2 ≤
      (startTimes nst arr).getD (i + 1) 0 := by
  induction arr generalizing nst i with
  | nil => exact absurd hi (by simp)
  | cons p rest ih =>
      obtain ⟨t, d⟩ := p
      cases i with
      | zero =>
          have hne : rest ≠ [] := by
            cases rest with
            | nil => exact absurd hi (by simp)
            | cons q r => exact List.cons_ne_nil q r
          simpa [startTimes] using startTimes_head_ge (scheduleStart nst t + d) rest hne
      | succ i =>
          have hi2 : i + 1 < rest.length := by simpa using hi
          simpa [startTimes] using ih (scheduleStart nst t + d) i hi2

theorem startTimes_monotone (arr : List (ℚ × ℚ)) (nst : ℚ)
    (hd : ∀ p ∈ arr, 0 ≤ p.2) (i : ℕ) (hi : i + 1 < arr.length) :
    (startTimes nst arr).getD i 0 ≤ (startTimes nst arr).getD (i + 1) 0 := by
  have hmem : arr.getD i (0, 0) ∈ arr := by
    rw [List.getD_eq_getElem _ _ (Nat.lt_of_succ_lt hi)]
    exact List.getElem_mem _
  have h0 : 0 ≤ (arr.getD i (0, 0)).2 := hd _ hmem
  have h1 := startTimes_no_overlap arr nst i hi
  linarith

/-! ## Normal forms for `closeLiveSession` -/

/-- The state left by a complete, exception-free run of
`closeLiveSession`, in terms of the state it started from. -/
theorem closeLiveSession_state (s : ModuleState) :
    (closeLiveSession s).1 =
      { liveSession := none,
        mediaStream := s.mediaStream,
        micLive := if s.mediaStream.isSome then false else s.micLive,
        scriptProc := s.scriptProc,
        procConnected := if s.scriptProc.isSome then false else s.procConnected,
        inputCtx := s.inputCtx.map (fun c => ⟨c.id, false⟩),
        outputCtx := s.outputCtx.map (fun c => ⟨c.id, false⟩),
        sources := [],
        nextStartTime := 0 } := by
  rcases s with ⟨ls, ms, ml, sp, pc, ic, oc, src, nst⟩
  cases ls <;> cases ms <;> cases sp <;> cases ic <;> cases oc <;>
    simp [closeLiveSession, runClose, closeStmt]

/-- The events emitted by a complete run of `closeLiveSession`. -/
theorem closeLiveSession_events (s : ModuleState) :
    (closeLiveSession s).2 =
      (s.liveSession.elim [] fun sid => [Ev.transportClose sid])
        ++ (if s.mediaStream.isSome then [Ev.trackStop] else [])
        ++ (if s.scriptProc.isSome then [Ev.procDisconnect] else [])
        ++ (s.inputCtx.elim [] fun c => [Ev.ctxClose c.id])
        ++ (s.outputCtx.elim [] fun c => [Ev.ctxClose c.id])
        ++ s.sources.map Ev.sourceStop := by
  rcases s with ⟨ls, ms, ml, sp, pc, ic, oc, src, nst⟩
  cases ls <;> cases ms <;> cases sp <;> cases ic <;> cases oc <;>
    simp [closeLiveSession, runClose, closeStmt]

theorem closeLiveSession_liveSession (s : ModuleState) :
    (closeLiveSession s).1.liveSession = none := by
  rw [closeLiveSession_state]

theorem closeLiveSession_no_hostCb (s : ModuleState) :
    (closeLiveSession s).2.all (fun e => !(hostCb e)) = true := by
  rw [closeLiveSession_events]
  rcases s with ⟨ls, ms, ml, sp, pc, ic, oc, src, nst⟩
  cases ls <;> cases ms <;> cases sp <;> cases ic <;> cases oc <;>
    simp [hostCb, List.all_eq_true, List.mem_map]

/-! ## Quantization facts about the encoder -/

theorem ratTrunc_sub_lt (y : ℚ) : |(ratTrunc y : ℚ) - y| < 1 := by
  rw [ratTrunc]
  split
  · have h1 := Int.floor_le y
    have h2 := Int.lt_floor_add_one y
    rw [abs_lt]
    constructor <;> [linarith; linarith]
  · have h1 := Int.le_ceil y
    have h2 := Int.ceil_lt_add_one y
    rw [abs_lt]
    constructor <;> [linarith; linarith]

theorem wrap16_eq_self {n : ℤ} (h1 : -32768 ≤ n) (h2 : n ≤ 32767) : wrap16 n = n := by
  simp only [wrap16]
  split <;> omega

theorem ratTrunc_bounds {y : ℚ} (h1 : -32768 ≤ y) (h2 : y < 32768) :
    -32768 ≤ ratTrunc y ∧ ratTrunc y ≤ 32767 := by
  rw [ratTrunc]
  split
  case isTrue h =>
    have ha : (0 : ℤ) ≤ ⌊y⌋ := Int.floor_nonneg.2 h
    have hb : ⌊y⌋ < (32768 : ℤ) := Int.floor_lt.2 (by exact_mod_cast h2)
    omega
  case isFalse h =>
    have ha : ((-32768 : ℤ) : ℚ) ≤ (⌈y⌉ : ℚ) :=
      le_trans (by exact_mod_cast h1) (Int.le_ceil y)
    have hb : ⌈y⌉ ≤ (0 : ℤ) :=
      Int.ceil_le.2 (by exact_mod_cast le_of_lt (not_le.1 h))
    have ha2 : (-32768 : ℤ) ≤ ⌈y⌉ := by exact_mod_cast ha
    omega

/-- For samples strictly below full scale the ToInt16 wrap is the
identity on the truncated value, and decoding recovers the sample to
within one quantization step. -/
theorem decode_encode_close {x : ℚ} (h1 : -1 ≤ x) (h2 : x < 1) :
    |decodeSample (jsToInt16 (x * 32768)) - x| ≤ 1 / 32768 := by
  have hy1 : -32768 ≤ x * 32768 := by linarith
  have hy2 : x * 32768 < 32768 := by linarith
  obtain ⟨hb1, hb2⟩ := ratTrunc_bounds hy1 hy2
  have hw : jsToInt16 (x * 32768) = ratTrunc (x * 32768) :=
    wrap16_eq_self hb1 hb2
  have hq : |(ratTrunc (x * 32768) : ℚ) - x * 32768| < 1 := ratTrunc_sub_lt (x * 32768)
  rw [hw, decodeSample]
  have hx : (ratTrunc (x * 32768) : ℚ) / 32768 - x =
      ((ratTrunc (x * 32768) : ℚ) - x * 32768) / 32768 := by ring
  rw [hx, abs_div, abs_of_pos (by norm_num : (0 : ℚ) < 32768)]
  exact div_le_div_of_nonneg_right (le_of_lt hq) (by norm_num) |>.trans_eq rfl

/-! ## The claims -/

/-- Claim C1: for every sequence of inbound audio segments processed in
arrival order, the start times computed by the playback scheduler are
non-decreasing and satisfy start(i+1) >= start(i) + d(i), so scheduled
segments never overlap and the cursor never jumps backward; the third
conjunct ties the per-step cursor update of the run to the `onmessage`
handler itself. -/
theorem claim_C1 (nst : ℚ) (arr : List (ℚ × ℚ)) (hd : ∀ p ∈ arr, 0 ≤ p.2) :
    (∀ i, i + 1 < arr.length →
        (startTimes nst arr).getD i 0 + (arr.getD i (0, 0)).2 ≤
          (startTimes nst arr).getD (i + 1) 0) ∧
    (∀ i, i + 1 < arr.length →
        (startTimes nst arr).getD i 0 ≤ (startTimes nst arr).getD (i + 1) 0) ∧
    (∀ (seg : Segment) (t : ℚ) (s : ModuleState),
        (onmessage (some seg) t s).1.nextStartTime =
          scheduleStart s.nextStartTime t + seg.duration) :=
  ⟨fun i hi => startTimes_no_overlap arr nst i hi,
   fun i hi => startTimes_monotone arr nst hd i hi,
   fun _ _ _ => rfl⟩

theorem claim_C1_witness :
    (∀ p ∈ [((0 : ℚ), (1 : ℚ)), ((2 : ℚ), (1/2 : ℚ)), ((1 : ℚ), (1 : ℚ))], 0 ≤ p.2) ∧
    ((startTimes 0 [((0 : ℚ), (1 : ℚ)), ((2 : ℚ), (1/2 : ℚ)), ((1 : ℚ), (1 : ℚ))]).getD 0 0 +
        (([((0 : ℚ), (1 : ℚ)), ((2 : ℚ), (1/2 : ℚ)),
            ((1 : ℚ), (1 : ℚ))].getD 0 ((0 : ℚ), (0 : ℚ))).2) ≤
      (startTimes 0 [((0 : ℚ), (1 : ℚ)), ((2 : ℚ), (1/2 : ℚ)),
        ((1 : ℚ), (1 : ℚ))]).getD 1 0) :=
  ⟨by norm_num, (claim_C1 0 _ (by norm_num)).1 0 (by decide)⟩

/-- Claim C5: for every arriving audio-bearing segment, the scheduled
start time equals max(nextStartTime, currentPlaybackClockTime): the
`sourceStart` event carries exactly that time, and the cursor advances
to it plus the segment's duration. -/
theorem claim_C5 (seg : Segment) (t : ℚ) (s : ModuleState) :
    (onmessage (some seg) t s).2 =
      [Ev.onMessage, Ev.sourceStart seg.srcId (max s.nextStartTime t)] ∧
    (onmessage (some seg) t s).1.nextStartTime = max s.nextStartTime t + seg.duration :=
  ⟨rfl, rfl⟩

/-- Claim C9: an inbound message with no audio payload still invokes
the host's onMessage callback but leaves the scheduler state unchanged:
nextStartTime keeps its value and the source set gains no element. -/
theorem claim_C9 (t : ℚ) (s : ModuleState) :
    onmessage none t s = (s, [Ev.onMessage]) ∧
    (onmessage none t s).1.nextStartTime = s.nextStartTime ∧
    (onmessage none t s).1.sources = s.sources ∧
    Ev.onMessage ∈ (onmessage none t s).2 :=
  ⟨rfl, rfl, rfl, by simp [onmessage]⟩

/-- Claim C10: after `closeLiveSession` returns, a capture callback
that fires sends nothing: the live-session handle is null and the send
is guarded on it, so no transport event is emitted. -/
theorem claim_C10 (s : ModuleState) (xs : List ℚ) :
    (onaudioprocess xs (closeLiveSession s).1).2 = [] ∧
    (closeLiveSession s).1.liveSession = none := by
  have h := closeLiveSession_liveSession s
  refine ⟨?_, h⟩
  unfold onaudioprocess
  rw [h]

/-- Claim C8: calling `closeLiveSession` when idle is a no-op that
emits nothing; on any state it fires no host callback; and it is
idempotent on the module state, so stop composed with stop equals a
single stop. -/
theorem claim_C8 :
    closeLiveSession idleState = (idleState, []) ∧
    (∀ s : ModuleState,
        (closeLiveSession (closeLiveSession s).1).1 = (closeLiveSession s).1) ∧
    (∀ s : ModuleState, (closeLiveSession s).2.all (fun e => !(hostCb e)) = true) := by
  refine ⟨by decide, ?_, closeLiveSession_no_hostCb⟩
  intro s
  rcases s with ⟨ls, ms, ml, sp, pc, ic, oc, src, nst⟩
  cases ls <;> cases ms <;> cases sp <;> cases ic <;> cases oc <;>
    simp [closeLiveSession, runClose, closeStmt]

/-- Claim C3 counterexample: in the open state reached by a successful
`connectLive`, a transport error leaves the microphone capturing and
the module state different from idle — the code's `onerror` performs
no teardown, contradicting the claim that it tears down like stop(). -/
theorem claim_C3_counterexample :
    (onTransportError openedState).1.micLive = true ∧
    (onTransportError openedState).1.liveSession = some 0 ∧
    (onTransportError openedState).1 ≠ idleState := by decide

/-- Claim C3 as amended: a transport-originated error only invokes the
host's onError callback; the module state is untouched, so no resource
is released and the session does not return to idle. -/
theorem claim_C3_amended (s : ModuleState) :
    (onTransportError s).1 = s ∧ (onTransportError s).2 = [Ev.onError] :=
  ⟨rfl, rfl⟩

/-- Claim C4 counterexample: with session 0 open, a second
`connectLive` raises no AlreadyActiveError, changes the module state
(fresh audio contexts), installs session 5 as the live session, and
never closes session 0. -/
theorem claim_C4_counterexample :
    openedState.liveSession = some 0 ∧
    (connectLiveStart 3 4 openedState).2 = [] ∧
    Ev.alreadyActiveError ∉ (connectLiveStart 3 4 openedState).2 ∧
    (connectLiveStart 3 4 openedState).1 ≠ openedState ∧
    (connectLiveOnOpen 5 11 21 (connectLiveStart 3 4 openedState).1).1.liveSession = some 5 ∧
    Ev.transportClose 0 ∉
      (connectLiveStart 3 4 openedState).2 ++
        (connectLiveOnOpen 5 11 21 (connectLiveStart 3 4 openedState).1).2 := by decide

/-- Claim C4 as amended: `connectLive` performs no already-active
check: it emits no error whatever the current state, overwrites the
audio contexts at once, and on open overwrites the session handle
without closing any previous session. -/
theorem claim_C4_amended (s : ModuleState) (inId outId sid streamId procId : ℕ) :
    (connectLiveStart inId outId s).2 = [] ∧
    (connectLiveStart inId outId s).1.liveSession = s.liveSession ∧
    (connectLiveStart inId outId s).1.inputCtx = some ⟨inId, true⟩ ∧
    (connectLiveOnOpen sid streamId procId (connectLiveStart inId outId s).1).1.liveSession =
      some sid ∧
    (connectLiveOnOpen sid streamId procId (connectLiveStart inId outId s).1).2 = [Ev.onOpen] :=
  ⟨rfl, rfl, rfl, rfl, rfl⟩

/-- Claim C7 counterexample: if statement 4 of the teardown (closing
the input audio context) throws, the remaining releases are skipped:
the in-flight source 7 is never stopped, the source set stays
non-empty, the cursor stays 3, and the output context stays open —
the releases are not guaranteed when an earlier one throws. -/
theorem claim_C7_counterexample :
    busyState.sources = [7] ∧
    (closeLiveSessionFaulty 4 busyState).1.sources = [7] ∧
    (closeLiveSessionFaulty 4 busyState).1.nextStartTime = 3 ∧
    (closeLiveSessionFaulty 4 busyState).1.nextStartTime ≠ 0 ∧
    Ev.sourceStop 7 ∉ (closeLiveSessionFaulty 4 busyState).2 ∧
    (closeLiveSessionFaulty 4 busyState).1.outputCtx = some ⟨2, true⟩ := by decide

/-- Claim C7 as amended: an exception-free run of `closeLiveSession`
performs every release — transport closed, capture stopped, processor
disconnected, both contexts closed, every in-flight source stopped —
and leaves nextStartTime = 0 with an empty source set; but the body
has no exception guarding, so the releases after a throwing one are
not performed (the counterexample); a run with no fault equals
`closeLiveSessionFaulty` past the last statement. -/
theorem claim_C7_amended (s : ModuleState) :
    (closeLiveSession s).1.nextStartTime = 0 ∧
    (closeLiveSession s).1.sources = [] ∧
    (closeLiveSession s).1.liveSession = none ∧
    (s.mediaStream.isSome = true → (closeLiveSession s).1.micLive = false) ∧
    (s.scriptProc.isSome = true → (closeLiveSession s).1.procConnected = false) ∧
    (∀ c, s.inputCtx = some c → (closeLiveSession s).1.inputCtx = some ⟨c.id, false⟩) ∧
    (∀ c, s.outputCtx = some c → (closeLiveSession s).1.outputCtx = some ⟨c.id, false⟩) ∧
    (∀ sid, s.liveSession = some sid → Ev.transportClose sid ∈ (closeLiveSession s).2) ∧
    (s.mediaStream.isSome = true → Ev.trackStop ∈ (closeLiveSession s).2) ∧
    (s.scriptProc.isSome = true → Ev.procDisconnect ∈ (closeLiveSession s).2) ∧
    (∀ x ∈ s.sources, Ev.sourceStop x ∈ (closeLiveSession s).2) ∧
    closeLiveSession s = closeLiveSessionFaulty 9 s := by
  rw [closeLiveSession_state, closeLiveSession_events]
  refine ⟨rfl, rfl, rfl, ?_, ?_, ?_, ?_, ?_, ?_, ?_, ?_, rfl⟩ <;>
    rcases s with ⟨ls, ms, ml, sp, pc, ic, oc, src, nst⟩ <;>
    cases ls <;> cases ms <;> cases sp <;> cases ic <;> cases oc <;>
    simp [List.mem_map]

theorem claim_C7_witness :
    busyState.mediaStream.isSome = true ∧
    busyState.liveSession = some 0 ∧
    7 ∈ busyState.sources ∧
    (closeLiveSession busyState).1.nextStartTime = 0 ∧
    (closeLiveSession busyState).1.micLive = false ∧
    Ev.transportClose 0 ∈ (closeLiveSession busyState).2 ∧
    Ev.sourceStop 7 ∈ (closeLiveSession busyState).2 := by
  obtain ⟨h1, h2, h3, h4, h5, h6, h7, h8, h9, h10, h11, h12⟩ := claim_C7_amended busyState
  exact ⟨by decide, by decide, by decide, h1, h4 (by decide), h8 0 (by decide),
    h11 7 (by decide)⟩

/-- Claim C2 counterexample: a chunk of 4096 samples equal to 0.5
encodes each sample to 16384, not 16383; and at full scale the code's
conversion (truncate the sample times 32768, wrap to 16 bits)
disagrees with the claimed round(sample * 32767) clamped: 1.0 encodes
to -32768 while the claimed conversion gives 32767. -/
theorem claim_C2_counterexample :
    (encodeChunk (List.replicate 4096 (1/2 : ℚ))).getD 0 0 = 16384 ∧
    (16384 : ℤ) ≠ 16383 ∧
    encodeChunk [(1 : ℚ)] = [-32768] ∧
    specEncodeSample 1 = 32767 ∧
    jsToInt16 ((1 : ℚ) * 32768) ≠ specEncodeSample 1 := by
  refine ⟨?_, by decide, ?_, ?_, ?_⟩
  · rw [encodeChunk_replicate, show (4096 : ℕ) = 4095 + 1 from rfl, List.replicate_succ,
      List.getD_cons_zero]
    norm_num [jsToInt16, ratTrunc, wrap16]
  · norm_num [encodeChunk, jsToInt16, ratTrunc, wrap16]
  · norm_num [specEncodeSample, round_eq]
  · norm_num [jsToInt16, ratTrunc, wrap16, specEncodeSample, round_eq]

/-- Claim C2 as amended: the encoder produces one 16-bit value per
input sample, preserving order, each computed by the ToInt16
conversion of sample * 32768 (truncation plus 16-bit wrap, not
round(sample * 32767) with clamping), packed as two little-endian
bytes per sample; a chunk of 4096 samples equal to 0.5 encodes to
4096 values each equal to 16384. -/
theorem claim_C2_amended :
    (∀ xs : List ℚ, (encodeChunk xs).length = xs.length) ∧
    (∀ (xs : List ℚ) (i : ℕ), i < xs.length →
        (encodeChunk xs).getD i 0 = jsToInt16 (xs.getD i 0 * 32768)) ∧
    (∀ xs : List ℚ, encodeBytes xs = (encodeChunk xs).flatMap byteLE) ∧
    encodeChunk (List.replicate 4096 (1/2 : ℚ)) = List.replicate 4096 (16384 : ℤ) := by
  refine ⟨encodeChunk_length, encodeChunk_getD, fun _ => rfl, ?_⟩
  rw [encodeChunk_replicate,
    show jsToInt16 ((1/2 : ℚ) * 32768) = 16384 from by norm_num [jsToInt16, ratTrunc, wrap16]]

theorem claim_C2_witness :
    (0 : ℕ) < ([(1/4 : ℚ)] : List ℚ).length ∧
    (encodeChunk [(1/4 : ℚ)]).getD 0 0 = jsToInt16 (([(1/4 : ℚ)] : List ℚ).getD 0 0 * 32768) :=
  ⟨by decide, claim_C2_amended.2.1 [(1/4 : ℚ)] 0 (by decide)⟩

/-- Claim C6 counterexample: the byte length is 2 per sample, but the
round trip is not within one quantization step for every in-range
sample: 1.0 encodes to -32768, which decodes to -1.0, an error of 2. -/
theorem claim_C6_counterexample :
    (encodeBytes [(1 : ℚ)]).length = 2 * 1 ∧
    decodeSample (jsToInt16 ((1 : ℚ) * 32768)) = -1 ∧
    ¬ (|decodeSample (jsToInt16 ((1 : ℚ) * 32768)) - 1| ≤ 1 / 32768) := by
  refine ⟨encodeBytes_length [(1 : ℚ)], ?_, ?_⟩
  · norm_num [decodeSample, jsToInt16, ratTrunc, wrap16]
  · norm_num [decodeSample, jsToInt16, ratTrunc, wrap16]

/-- Claim C6 as amended: for every capture chunk the encoded frame has
2 * L bytes; and for every sample in [-1, 1) — full positive scale
excluded, since 1.0 wraps — decoding the encoded sample recovers it to
within one quantization step (1/32768). -/
theorem claim_C6_amended :
    (∀ xs : List ℚ, (encodeBytes xs).length = 2 * xs.length) ∧
    (∀ x : ℚ, -1 ≤ x → x < 1 →
        |decodeSample (jsToInt16 (x * 32768)) - x| ≤ 1 / 32768) :=
  ⟨encodeBytes_length, fun _ h1 h2 => decode_encode_close h1 h2⟩

theorem claim_C6_witness :
    ((-1 : ℚ) ≤ 1/3) ∧ ((1/3 : ℚ) < 1) ∧
    |decodeSample (jsToInt16 ((1/3 : ℚ) * 32768)) - 1/3| ≤ 1 / 32768 :=
  ⟨by norm_num, by norm_num, claim_C6_amended.2 (1/3) (by norm_num) (by norm_num)⟩

end LiveBridge
